import Mathlib

/-!
Verification of spack's post-install dynamic-linking checker
(lib/spack/spack/hooks/check_dynamic_linking_elf.py), shallowly embedded.

Paths and library names are byte strings, modelled as `List Nat` (one `Nat`
per byte).  The filesystem is a pure oracle mapping a path to the outcome of
opening and ELF-parsing the file at that path, so that `open` + `parse_elf`
failures (OSError / ElfParsingError) are explicit constructors rather than
exceptions.
-/

namespace CheckElf

/-- ASCII byte-string literal helper: the code points of the characters.
Every constant appearing in the source is ASCII, where code points and
UTF-8 bytes coincide. -/
def bs (s : String) : List Nat := s.data.map Char.toNat

/-- Python `bytes.split(b":")` restricted to a single-byte separator:
splits on every occurrence of `sep`, keeping empty pieces. -/
def splitByte (sep : Nat) : List Nat → List (List Nat)
  | [] => [[]]
  | x :: xs =>
    let r := splitByte sep xs
    if x == sep then [] :: r
    else
      match r with
      | [] => [[x]]
      | h :: t => (x :: h) :: t

/-- `os.path.isabs` for POSIX byte paths: starts with a `/` (byte 47). -/
def isAbs (p : List Nat) : Bool :=
  match p with
  | [] => false
  | c :: _ => c == 47

/-- `os.path.join(a, b)` for POSIX byte paths (two arguments):
an absolute second component replaces the first; otherwise concatenate,
inserting a `/` unless the first part is empty or already ends in `/`. -/
def pjoin (a b : List Nat) : List Nat :=
  if isAbs b then b
  else if a.isEmpty || (a.getLast? == some 47) then a ++ b
  else a ++ 47 :: b

/-- `os.path.dirname` for POSIX byte paths: take everything up to and
including the last `/`, then strip trailing slashes unless the result is
entirely slashes; no slash at all yields the empty path. -/
def dirname (p : List Nat) : List Nat :=
  match p.reverse.findIdx? (fun c => c == 47) with
  | none => []
  | some k =>
    let head := p.take (p.length - k)
    if head.all (fun c => c == 47) then head
    else (head.reverse.dropWhile (fun c => c == 47)).reverse

/-- The literal loader token `$ORIGIN` (the only token the source
substitutes; `$LIB` and `$PLATFORM` are intentionally unsupported). -/
def originToken : List Nat := bs "$ORIGIN"

/-- Python `x.replace(b"$ORIGIN", origin)`: replace every non-overlapping
occurrence of the token, scanning left to right.  The extra `Nat` argument
is recursion fuel (initialised to the length of the input) so that the
definition is structurally recursive and kernel-reducible. -/
def replaceOriginF (origin : List Nat) : Nat → List Nat → List Nat
  | _, [] => []
  | 0, l => l
  | fuel + 1, x :: xs =>
    if originToken.isPrefixOf (x :: xs) then
      origin ++ replaceOriginF origin fuel ((x :: xs).drop originToken.length)
    else
      x :: replaceOriginF origin fuel xs

/-- `x.replace(b"$ORIGIN", origin)` with the fuel pre-supplied. -/
def replaceOrigin (origin x : List Nat) : List Nat :=
  replaceOriginF origin x.length x

/-- Python `dict` assignment `d[k] = v` on an insertion-ordered association
list: an existing key keeps its position and gets the new value, a new key
is appended at the end. -/
def dictInsert : List (List Nat × List Nat) → List Nat → List Nat → List (List Nat × List Nat)
  | [], k, v => [(k, v)]
  | (k0, v0) :: rest, k, v =>
    if k0 == k then (k0, v) :: rest
    else (k0, v0) :: dictInsert rest k v

/-- Strict UTF-8 decoding, as `bytes.decode("utf-8")` performs it: rejects
truncated sequences, continuation-byte errors, overlong encodings,
surrogate code points and code points beyond U+10FFFF.  Returns the decoded
code points on success, `none` on `UnicodeDecodeError`. -/
def utf8Decode : List Nat → Option (List Nat)
  | [] => some []
  | b :: rest =>
    if b ≤ 0x7F then
      (utf8Decode rest).map (fun cps => b :: cps)
    else if b < 0xC2 then none
    else if b ≤ 0xDF then
      match rest with
      | b1 :: rest1 =>
        if 0x80 ≤ b1 && b1 ≤ 0xBF then
          (utf8Decode rest1).map (fun cps => ((b - 0xC0) * 0x40 + (b1 - 0x80)) :: cps)
        else none
      | [] => none
    else if b ≤ 0xEF then
      match rest with
      | b1 :: b2 :: rest2 =>
        if 0x80 ≤ b1 && b1 ≤ 0xBF && 0x80 ≤ b2 && b2 ≤ 0xBF then
          let cp := (b - 0xE0) * 0x1000 + (b1 - 0x80) * 0x40 + (b2 - 0x80)
          if 0x800 ≤ cp && !(0xD800 ≤ cp && cp ≤ 0xDFFF) then
            (utf8Decode rest2).map (fun cps => cp :: cps)
          else none
        else none
      | _ => none
    else if b ≤ 0xF4 then
      match rest with
      | b1 :: b2 :: b3 :: rest3 =>
        if 0x80 ≤ b1 && b1 ≤ 0xBF && 0x80 ≤ b2 && b2 ≤ 0xBF && 0x80 ≤ b3 && b3 ≤ 0xBF then
          let cp := (b - 0xF0) * 0x40000 + (b1 - 0x80) * 0x1000 + (b2 - 0x80) * 0x40 + (b3 - 0x80)
          if 0x10000 ≤ cp && cp ≤ 0x10FFFF then
            (utf8Decode rest3).map (fun cps => cp :: cps)
          else none
        else none
      | _ => none
    else none

/-- Anchored glob matching over code points, with `*` (code point 42)
matching any sequence: the semantics of one `fnmatch.translate` pattern
`(?s:...)\Z` used with `re.match`.  The fixed allowlist patterns contain
only literal characters and `*`, so the other `fnmatch` metacharacters are
not modelled.  The `Nat` argument is recursion fuel (at least
`pat.length + s.length`) making the definition kernel-reducible. -/
def globMatchF : Nat → List Nat → List Nat → Bool
  | 0, _, _ => false
  | _ + 1, [], s => s.isEmpty
  | fuel + 1, c :: pat, s =>
    if c == 42 then
      globMatchF fuel pat s ||
        (match s with
         | [] => false
         | _ :: s1 => globMatchF fuel (c :: pat) s1)
    else
      match s with
      | [] => false
      | d :: s1 => c == d && globMatchF fuel pat s1

/-- Anchored glob match with the fuel pre-supplied. -/
def globMatch (pat s : List Nat) : Bool :=
  globMatchF (pat.length + s.length + 1) pat s

/-- Patterns for names of libraries that are allowed to be unresolved when
just looking at RPATHs added by Spack (`ALLOW_UNRESOLVED` in the source). -/
def ALLOW_UNRESOLVED : List String :=
  [ "linux-vdso.so.*",
    "ld-musl-*.so.*",
    "ld-linux-*.so.*",
    "libc.so.*",
    "libdl.so.*",
    "libm.so.*",
    "libmemusage.so.*",
    "libmvec.so.*",
    "libnsl.so.*",
    "libnss_compat.so.*",
    "libnss_db.so.*",
    "libnss_dns.so.*",
    "libnss_files.so.*",
    "libnss_hesiod.so.*",
    "libpcprofile.so.*",
    "libpthread.so.*",
    "libresolv.so.*",
    "librt.so.*",
    "libSegFault.so.*",
    "libthread_db.so.*",
    "libutil.so.*",
    "libudev.so.*" ]

/-- `ALLOW_UNRESOLVED_REGEX.match(name)`: the compiled regex is the
alternation of `fnmatch.translate(p)` over all allowlist patterns, each
alternative anchored at both ends, tried against the full decoded name. -/
def allowRegexMatch (name : List Nat) : Bool :=
  ALLOW_UNRESOLVED.any (fun pat => globMatch (bs pat) name)

/-- `should_be_resolved(filename)`: true if a library should be resolved in
RPATHs.  Decodes the raw name as UTF-8; on `UnicodeDecodeError` it fails
closed and returns true. -/
def should_be_resolved (filename : List Nat) : Bool :=
  match utf8Decode filename with
  | some s => !(allowRegexMatch s)
  | none => true

/-- The ELF header fields the checker consumes (`elf_hdr` in
`spack.util.elf.ElfFile`). -/
structure ElfHeader where
  e_type : Nat
  e_machine : Nat
deriving DecidableEq

/-- `elf.ELF_CONSTANTS.ET_DYN`: the object-type code of a shared object. -/
def ET_DYN : Nat := 3

/-- The slice of `spack.util.elf.ElfFile` the checker consumes: header
fields, endianness, bit width, and the dynamic-section data obtained with
`parse_elf(f, interpreter=False, dynamic_section=True)`. -/
structure ElfFile where
  elf_hdr : ElfHeader
  is_little_endian : Bool
  is_64_bit : Bool
  has_needed : Bool
  dt_needed_strs : List (List Nat)
  has_rpath : Bool
  dt_rpath_str : List Nat
deriving DecidableEq

/-- `is_compatible(parent, child)`: the candidate is a shared object and
agrees with the consumer on endianness, bit width and machine code. -/
def is_compatible (parent child : ElfFile) : Bool :=
  child.elf_hdr.e_type == ET_DYN
    && parent.is_little_endian == child.is_little_endian
    && parent.is_64_bit == child.is_64_bit
    && parent.elf_hdr.e_machine == child.elf_hdr.e_machine

/-- Outcome of `open(path, "rb")` followed by `elf.parse_elf`:
`ioError` models `OSError`, `parseError` models `elf.ElfParsingError`,
`ok` carries the parsed descriptor. -/
inductive OpenResult where
  | ioError
  | parseError
  | ok (e : ElfFile)
deriving DecidableEq

/-- The pure filesystem oracle: what opening + parsing each path yields. -/
abbrev FS := List Nat → OpenResult

/-- `candidate_matches(current_elf, candidate_path)`: open and parse the
candidate and test compatibility; `OSError` and `ElfParsingError` both
degrade to `false` (the `try`/`except` in the source). -/
def candidate_matches (fs : FS) (current_elf : ElfFile) (candidate_path : List Nat) : Bool :=
  match fs candidate_path with
  | OpenResult.ok e => is_compatible current_elf e
  | _ => false

/-- Modelled from the spec: `stable_partition` from `llnl.util.lang`
(not under src/).  The spec describes partitioning "into absolute
vs. relative" and "preserving relative order within each group"; the first
component holds the elements satisfying the predicate, the second the
rest, each in original order. -/
def stable_partition {α : Type} (l : List α) (pred : α → Bool) : List α × List α :=
  (l.filter pred, l.filter (fun x => !pred x))

/-- The per-file diagnostic record (`Problem` in the source):
`resolved` maps needed-library names to the path that satisfied them,
`unresolved` lists the names that could not be validated, in the order the
algorithm appended them, and `relative_rpaths` lists the relative RPATH
entries found in the file. -/
structure Problem where
  resolved : List (List Nat × List Nat)
  unresolved : List (List Nat)
  relative_rpaths : List (List Nat)
deriving DecidableEq

/-- The inner `for rpath in rpaths` loop of `visit_file` for one by-search
library: form `candidate = os.path.join(rpath, lib)` for each search-path
entry in order and return the first candidate that matches; `none` models
falling through to the `else` clause of the `for`. -/
def findCandidate (fs : FS) (pe : ElfFile) : List (List Nat) → List Nat → Option (List Nat)
  | [], _ => none
  | rpath :: rest, lib =>
    let candidate := pjoin rpath lib
    if candidate_matches fs pe candidate then some candidate
    else findCandidate fs pe rest lib

/-- The `for lib in search_libs` loop of `visit_file`: skip allowlisted
names, record the first matching candidate in `resolved`, append the name
to `unresolved` when no search-path entry yields a match. -/
def searchLoop (fs : FS) (pe : ElfFile) (rpaths : List (List Nat)) :
    List (List Nat × List Nat) × List (List Nat) → List (List Nat) →
    List (List Nat × List Nat) × List (List Nat)
  | acc, [] => acc
  | (res, unr), lib :: libs =>
    if should_be_resolved lib then
      match findCandidate fs pe rpaths lib with
      | some c => searchLoop fs pe rpaths (dictInsert res lib c, unr) libs
      | none => searchLoop fs pe rpaths (res, unr ++ [lib]) libs
    else searchLoop fs pe rpaths (res, unr) libs

/-- The `for lib in direct_libs` loop of `visit_file`: a directly-opened
library resolves to itself when `candidate_matches` accepts its own path,
otherwise its name is appended to `unresolved`. -/
def directLoop (fs : FS) (pe : ElfFile) :
    List (List Nat × List Nat) → List (List Nat) → List (List Nat) →
    List (List Nat × List Nat) × List (List Nat)
  | res, unr, [] => (res, unr)
  | res, unr, lib :: libs =>
    if candidate_matches fs pe lib then directLoop fs pe (dictInsert res lib lib) unr libs
    else directLoop fs pe res (unr ++ [lib]) libs

/-- Lines 112-151 of the source: the per-file resolution computation of
`ResolveSharedElfLibDepsVisitor.visit_file`, from the parsed descriptor to
the (resolved, unresolved, relative_rpaths) triple.  `path` is the full
byte path of the file being analyzed. -/
def computeProblem (fs : FS) (path : List Nat) (parsed_elf : ElfFile) : Problem :=
  let origin := dirname path
  let needed_libs := parsed_elf.dt_needed_strs
  let rpaths0 := if parsed_elf.has_rpath then splitByte 58 parsed_elf.dt_rpath_str else []
  let rpaths1 := (rpaths0.filter (fun x => !x.isEmpty)).map (replaceOrigin origin)
  let pr := stable_partition rpaths1 isAbs
  let rpaths := pr.1
  let relative_rpaths := pr.2
  let pd := stable_partition needed_libs (fun x => x.contains 47)
  let direct_libs0 := pd.1
  let search_libs := pd.2
  let pda := stable_partition direct_libs0 isAbs
  let direct_libs := pda.1
  let unresolved0 := pda.2
  let sr := searchLoop fs parsed_elf rpaths ([], unresolved0) search_libs
  let dr := directLoop fs parsed_elf sr.1 sr.2 direct_libs
  { resolved := dr.1, unresolved := dr.2, relative_rpaths := relative_rpaths }

/-- `ResolveSharedElfLibDepsVisitor.visit_file` for one file: open and
parse the file (failures mean it is not a valid ELF: return without a
diagnostic), return without a diagnostic when there are no needed entries,
otherwise run the resolution computation and record a `Problem` exactly
when `unresolved` or `relative_rpaths` is non-empty. -/
def visit_file (fs : FS) (path : List Nat) : Option Problem :=
  match fs path with
  | OpenResult.ok parsed_elf =>
    if parsed_elf.has_needed then
      let p := computeProblem fs path parsed_elf
      if p.unresolved.isEmpty && p.relative_rpaths.isEmpty then none else some p
    else none
  | _ => none

/-- The search-path entries of one file, as computed on lines 116-120 of
the source: split the raw RPATH string on `:`, drop empty entries, then
replace the literal token `$ORIGIN` by `dirname path` in every entry. -/
def rpathEntriesOf (path : List Nat) (pe : ElfFile) : List (List Nat) :=
  ((if pe.has_rpath then splitByte 58 pe.dt_rpath_str else []).filter
      (fun x => !x.isEmpty)).map (replaceOrigin (dirname path))

/-- The needed entries containing a path separator (`direct_libs` before
the absolute/relative split). -/
def directOf (pe : ElfFile) : List (List Nat) :=
  pe.dt_needed_strs.filter (fun l => l.contains 47)

/-- The bare needed names (`search_libs`). -/
def searchOf (pe : ElfFile) : List (List Nat) :=
  pe.dt_needed_strs.filter (fun l => !l.contains 47)

/-- The relative direct references (seed of `unresolved`). -/
def relDirectOf (pe : ElfFile) : List (List Nat) :=
  (directOf pe).filter (fun l => !isAbs l)

/-- The absolute direct references (`direct_libs` after the split). -/
def absDirectOf (pe : ElfFile) : List (List Nat) :=
  (directOf pe).filter isAbs

/-- The absolute search-path entries actually used for probing. -/
def searchRpathsOf (path : List Nat) (pe : ElfFile) : List (List Nat) :=
  (rpathEntriesOf path pe).filter isAbs

/-- The by-search names that must be resolved but for which no search-path
entry yields a compatible candidate. -/
def failedSearchOf (fs : FS) (path : List Nat) (pe : ElfFile) : List (List Nat) :=
  (searchOf pe).filter
    (fun l => should_be_resolved l && (findCandidate fs pe (searchRpathsOf path pe) l).isNone)

/-- The absolute direct references whose own path fails validation. -/
def failedDirectOf (fs : FS) (pe : ElfFile) : List (List Nat) :=
  (absDirectOf pe).filter (fun l => !candidate_matches fs pe l)

/-- A decoded code-point sequence as a Lean string (the code points come
from `utf8Decode`, hence are valid scalar values). -/
def stringOfCps (l : List Nat) : String :=
  String.mk (l.map Char.ofNat)

/-- One hexadecimal digit, lower case, as CPython prints it. -/
def hexDigit (n : Nat) : Char :=
  if n < 10 then Char.ofNat (48 + n) else Char.ofNat (87 + n)

/-- Escaping of one byte inside CPython's `repr` of a `bytes` object using
quote character `quote`. -/
def byteEscape (quote : Nat) (c : Nat) : List Char :=
  if c == 92 then ['\\', '\\']
  else if c == quote then ['\\', Char.ofNat quote]
  else if c == 9 then ['\\', 't']
  else if c == 10 then ['\\', 'n']
  else if c == 13 then ['\\', 'r']
  else if c < 32 || 126 < c then ['\\', 'x', hexDigit (c / 16), hexDigit (c % 16)]
  else [Char.ofNat c]

/-- CPython's textual rendering `str(bytes)` (its `repr`): a `b` prefix and
a quoted, escaped body; double quotes are used when the bytes contain a
single quote but no double quote. -/
def pythonBytesRepr (b : List Nat) : String :=
  let quote : Nat := if b.contains 39 && !b.contains 34 then 34 else 39
  String.mk ('b' :: Char.ofNat quote :: ((b.map (byteEscape quote)).flatten ++ [Char.ofNat quote]))

/-- `maybe_decode(byte_str)`: decode as UTF-8 when possible, otherwise keep
the raw bytes (`Union[str, bytes]` in the source). -/
def maybe_decode (byte_str : List Nat) : Sum String (List Nat) :=
  match utf8Decode byte_str with
  | some cps => Sum.inl (stringOfCps cps)
  | none => Sum.inr byte_str

/-- What the f-string interpolations on lines 203 and 206 of the source
produce for one `maybe_decode` result: `str()` of the value - the decoded
text, or CPython's textual rendering of the raw bytes object. -/
def fstrMaybeDecoded (b : List Nat) : String :=
  match maybe_decode b with
  | Sum.inl s => s
  | Sum.inr raw => pythonBytesRepr raw

/-- Line 201's bare `output.write(maybe_decode(needed))`:
`io.StringIO.write` appends a `str`, but raises `TypeError` when handed the
raw `bytes` of an undecodable name; `none` models that raised
`TypeError`. -/
def writeUnion (acc : String) (v : Sum String (List Nat)) : Option String :=
  match v with
  | Sum.inl s => some (acc ++ s)
  | Sum.inr _ => none

/-- Lines 198-204 of the source for one entry of `problem.resolved`: the
eight-space indent, then either the bare write of line 201 (self-resolved
entry, can raise `TypeError` on undecodable bytes) or the f-string arrow
form of line 203 (always renders), then the newline. -/
def writeResolvedEntry (acc : String) (needed full_path : List Nat) : Option String :=
  if needed == full_path then
    (writeUnion (acc ++ "        ") (maybe_decode needed)).map (fun s => s ++ "\n")
  else
    some (acc ++ "        " ++ fstrMaybeDecoded needed ++ " => "
      ++ fstrMaybeDecoded full_path ++ "\n")

/-- The `for needed, full_path in problem.resolved.items()` loop, stopping
at the first entry whose write raises. -/
def writeResolvedEntries (acc : String) : List (List Nat × List Nat) → Option String
  | [] => some acc
  | (needed, full_path) :: rest =>
    match writeResolvedEntry acc needed full_path with
    | none => none
    | some acc2 => writeResolvedEntries acc2 rest

/-- Lines 195-207 of the source: one per-file block of the report - the
file path, its resolved entries (which may raise), then its unresolved
names as `name => not found` and a blank line. -/
def writeProblemBlock (acc : String) (path : String) (problem : Problem) : Option String :=
  match writeResolvedEntries (acc ++ path ++ "\n") problem.resolved with
  | none => none
  | some acc2 =>
    some ((problem.unresolved.foldl
        (fun a nf => a ++ "        " ++ fstrMaybeDecoded nf ++ " => not found\n") acc2)
      ++ "\n")

/-- The `for path, problem in visitor.problems.items()` loop. -/
def renderReportAux : String → List (String × Problem) → Option String
  | acc, [] => some acc
  | acc, (path, problem) :: rest =>
    match writeProblemBlock acc path problem with
    | none => none
    | some acc2 => renderReportAux acc2 rest

/-- Lines 193-207 of the source: the ldd-style textual report built from
the aggregate `visitor.problems` (an insertion-ordered mapping from
relative file path to `Problem`).  `some` carries the full report text;
`none` models the `TypeError` that line 201's `StringIO.write` raises on
the first self-resolved entry whose name does not decode as UTF-8. -/
def renderReport (problems : List (String × Problem)) : Option String :=
  renderReportAux "Not all executables/libraries can resolve their dependencies:\n" problems

/-- Outcome of the checker's reporting phase: `passed` models the silent
early return, `fatal` models raising `CannotLocateSharedLibraries` with the
report text as payload, `warned` models `tty.error` with the same text, and
`typeError` models the `TypeError` escaping from line 201 while the report
is still being built. -/
inductive CheckResult where
  | passed
  | fatal (report : String)
  | warned (report : String)
  | typeError
deriving DecidableEq

/-- Lines 188-213 of `post_install`: with the aggregate `problems` already
collected by the directory walk, return silently when there are none;
otherwise build the report (lines 193-207, which raises `TypeError` on an
undecodable self-resolved name, before the policy flag is ever read) and
either raise `CannotLocateSharedLibraries` carrying it (strict mode) or
emit it through `tty.error` and return normally.  The earlier gates of
`post_install` (external spec, non-ELF platform) and the walk itself happen
before this phase. -/
def post_install (problems : List (String × Problem)) (strict : Bool) : CheckResult :=
  if problems.isEmpty then CheckResult.passed
  else
    match renderReport problems with
    | none => CheckResult.typeError
    | some text =>
      if strict then CheckResult.fatal text
      else CheckResult.warned text

/-! Concrete test fixtures: small filesystems and descriptors used to
instantiate the theorems below on explicit inputs. -/

/-- A compatible 64-bit little-endian x86-64 shared object. -/
def lib64 : ElfFile :=
  { elf_hdr := { e_type := 3, e_machine := 62 }
    is_little_endian := true
    is_64_bit := true
    has_needed := false
    dt_needed_strs := []
    has_rpath := false
    dt_rpath_str := [] }

/-- A 64-bit little-endian x86-64 executable needing a failing absolute
direct reference, a failing by-search name, and an allowlisted name. -/
def pe0 : ElfFile :=
  { elf_hdr := { e_type := 2, e_machine := 62 }
    is_little_endian := true
    is_64_bit := true
    has_needed := true
    dt_needed_strs := [bs "/a/libd.so", bs "libs.so", bs "libc.so.6"]
    has_rpath := true
    dt_rpath_str := bs "/r" }

def path0 : List Nat := bs "/pkg/app"

/-- Filesystem containing only `pe0` at `path0`; every probe fails. -/
def fs0 : FS := fun p => if p == path0 then OpenResult.ok pe0 else OpenResult.ioError

/-- Consumer needing `liba.so` with RPATH `/A:/B`. -/
def pe1 : ElfFile :=
  { elf_hdr := { e_type := 2, e_machine := 62 }
    is_little_endian := true
    is_64_bit := true
    has_needed := true
    dt_needed_strs := [bs "liba.so"]
    has_rpath := true
    dt_rpath_str := bs "/A:/B" }

def path1 : List Nat := bs "/pkg/bin/app"

/-- Filesystem where both `/A/liba.so` and `/B/liba.so` are compatible. -/
def fs1 : FS := fun p =>
  if p == path1 then OpenResult.ok pe1
  else if p == bs "/A/liba.so" then OpenResult.ok lib64
  else if p == bs "/B/liba.so" then OpenResult.ok lib64
  else OpenResult.ioError

/-- A file with no needed entries at all. -/
def peE : ElfFile :=
  { elf_hdr := { e_type := 3, e_machine := 62 }
    is_little_endian := true
    is_64_bit := true
    has_needed := false
    dt_needed_strs := []
    has_rpath := false
    dt_rpath_str := [] }

def pathE : List Nat := bs "/pkg/e"

def fsE : FS := fun p => if p == pathE then OpenResult.ok peE else OpenResult.ioError

/-- Consumer with two direct absolute references: one with an allowlisted
basename that fails validation, one that validates in place. -/
def pe10 : ElfFile :=
  { elf_hdr := { e_type := 2, e_machine := 62 }
    is_little_endian := true
    is_64_bit := true
    has_needed := true
    dt_needed_strs := [bs "/usr/lib/libc.so.6", bs "/lib/libok.so"]
    has_rpath := false
    dt_rpath_str := [] }

def path10 : List Nat := bs "/pkg/x"

def fs10 : FS := fun p =>
  if p == path10 then OpenResult.ok pe10
  else if p == bs "/lib/libok.so" then OpenResult.ok lib64
  else OpenResult.ioError

/-- Filesystem holding a malformed (unparsable) file. -/
def fsP : FS := fun p => if p == bs "/mal" then OpenResult.parseError else OpenResult.ioError

/-- Consumer whose only needed entry is a relative direct reference (it
contains a path separator but is not absolute) with an allowlisted
basename; a compatible library really does sit at that relative path. -/
def peR : ElfFile :=
  { elf_hdr := { e_type := 2, e_machine := 62 }
    is_little_endian := true
    is_64_bit := true
    has_needed := true
    dt_needed_strs := [bs "x/libc.so.6"]
    has_rpath := false
    dt_rpath_str := [] }

def pathR : List Nat := bs "/pkg/r"

def fsR : FS := fun p =>
  if p == pathR then OpenResult.ok peR
  else if p == bs "x/libc.so.6" then OpenResult.ok lib64
  else OpenResult.ioError

/-- A diagnostic whose `resolved` holds a validated direct reference with
an undecodable name (`b"/\xff"`), reaching line 201's bare write. -/
def probBad : Problem :=
  { resolved := [([47, 255], [47, 255])]
    unresolved := [bs "libz.so"]
    relative_rpaths := [] }

/-- Consumer whose needed library resolves via the absolute RPATH entry but
whose RPATH also holds a relative entry (resolved via `$ORIGIN`). -/
def pe4 : ElfFile :=
  { elf_hdr := { e_type := 2, e_machine := 62 }
    is_little_endian := true
    is_64_bit := true
    has_needed := true
    dt_needed_strs := [bs "liba.so"]
    has_rpath := true
    dt_rpath_str := bs "lib:$ORIGIN/../lib" }

def path4 : List Nat := bs "/pkg/bin/app4"

def fs4 : FS := fun p =>
  if p == path4 then OpenResult.ok pe4
  else if p == bs "/pkg/bin/../lib/liba.so" then OpenResult.ok lib64
  else OpenResult.ioError

/-! Helper lemmas characterising the loops of `visit_file`. -/

/-! Helper lemmas characterising the loops of `visit_file`. -/

theorem lookup_cons_ne (k0 v0 k' : List Nat) (tl : List (List Nat × List Nat))
    (h : ¬k' = k0) : List.lookup k' ((k0, v0) :: tl) = List.lookup k' tl := by
  simp [List.lookup, beq_false_of_ne h]

theorem lookup_dictInsert (d : List (List Nat × List Nat)) (k v k' : List Nat) :
    List.lookup k' (dictInsert d k v) = if k' = k then some v else List.lookup k' d := by
  induction d with
  | nil =>
    by_cases h : k' = k
    · subst h; simp [dictInsert]
    · simp [dictInsert, h, beq_false_of_ne h]
  | cons hd tl ih =>
    obtain ⟨k0, v0⟩ := hd
    by_cases h0 : k0 = k
    · subst h0
      by_cases h : k' = k0
      · subst h; simp [dictInsert]
      · simp only [dictInsert, beq_self_eq_true, if_true, if_neg h,
          lookup_cons_ne _ _ _ _ h]
    · by_cases h : k' = k0
      · subst h
        simp [dictInsert, beq_false_of_ne h0, h0]
      · simp only [dictInsert, beq_false_of_ne h0, Bool.false_eq_true, if_false,
          lookup_cons_ne _ _ _ _ h, ih]

theorem searchLoop_snd (fs : FS) (pe : ElfFile) (rpaths : List (List Nat)) :
    ∀ (libs : List (List Nat)) (res : List (List Nat × List Nat)) (unr : List (List Nat)),
      (searchLoop fs pe rpaths (res, unr) libs).2
        = unr ++ libs.filter
            (fun l => should_be_resolved l && (findCandidate fs pe rpaths l).isNone) := by
  intro libs
  induction libs with
  | nil => intro res unr; simp [searchLoop]
  | cons lib rest ih =>
    intro res unr
    by_cases h : should_be_resolved lib = true
    · cases hc : findCandidate fs pe rpaths lib with
      | some c =>
        simp only [searchLoop, h, if_true, hc]
        rw [ih]
        simp [List.filter, h, hc]
      | none =>
        simp only [searchLoop, h, if_true, hc]
        rw [ih]
        simp [List.filter, h, hc]
    · rw [Bool.not_eq_true] at h
      simp only [searchLoop, h, Bool.false_eq_true, if_false]
      rw [ih]
      simp [List.filter, h]

theorem lookup_searchLoop (fs : FS) (pe : ElfFile) (rpaths : List (List Nat)) (lib : List Nat) :
    ∀ (libs : List (List Nat)) (res : List (List Nat × List Nat)) (unr : List (List Nat)),
      List.lookup lib (searchLoop fs pe rpaths (res, unr) libs).1
        = if lib ∈ libs ∧ should_be_resolved lib = true
              ∧ (findCandidate fs pe rpaths lib).isSome = true
          then findCandidate fs pe rpaths lib
          else List.lookup lib res := by
  intro libs
  induction libs with
  | nil => intro res unr; simp [searchLoop]
  | cons lib0 rest ih =>
    intro res unr
    by_cases h0 : should_be_resolved lib0 = true
    · cases hc : findCandidate fs pe rpaths lib0 with
      | some c =>
        simp only [searchLoop, h0, if_true, hc]
        rw [ih, lookup_dictInsert]
        by_cases hl : lib = lib0
        · subst hl
          simp [List.mem_cons, h0, hc]
        · simp [List.mem_cons, hl]
      | none =>
        simp only [searchLoop, h0, if_true, hc]
        rw [ih]
        by_cases hl : lib = lib0
        · subst hl
          simp [List.mem_cons, hc]
        · simp [List.mem_cons, hl]
    · rw [Bool.not_eq_true] at h0
      simp only [searchLoop, h0, Bool.false_eq_true, if_false]
      rw [ih]
      by_cases hl : lib = lib0
      · subst hl
        simp [List.mem_cons, h0]
      · simp [List.mem_cons, hl]

theorem directLoop_snd (fs : FS) (pe : ElfFile) :
    ∀ (libs : List (List Nat)) (res : List (List Nat × List Nat)) (unr : List (List Nat)),
      (directLoop fs pe res unr libs).2
        = unr ++ libs.filter (fun l => !candidate_matches fs pe l) := by
  intro libs
  induction libs with
  | nil => intro res unr; simp [directLoop]
  | cons lib rest ih =>
    intro res unr
    cases hc : candidate_matches fs pe lib with
    | true =>
      simp only [directLoop, hc, if_true]
      rw [ih]
      simp [List.filter, hc]
    | false =>
      simp only [directLoop, hc, Bool.false_eq_true, if_false]
      rw [ih]
      simp [List.filter, hc]

theorem lookup_directLoop (fs : FS) (pe : ElfFile) (lib : List Nat) :
    ∀ (libs : List (List Nat)) (res : List (List Nat × List Nat)) (unr : List (List Nat)),
      List.lookup lib (directLoop fs pe res unr libs).1
        = if lib ∈ libs ∧ candidate_matches fs pe lib = true then some lib
          else List.lookup lib res := by
  intro libs
  induction libs with
  | nil => intro res unr; simp [directLoop]
  | cons lib0 rest ih =>
    intro res unr
    cases hc : candidate_matches fs pe lib0 with
    | true =>
      simp only [directLoop, hc, if_true]
      rw [ih, lookup_dictInsert]
      by_cases hl : lib = lib0
      · subst hl
        simp [List.mem_cons, hc]
      · simp [List.mem_cons, hl]
    | false =>
      simp only [directLoop, hc, Bool.false_eq_true, if_false]
      rw [ih]
      by_cases hl : lib = lib0
      · subst hl
        simp [List.mem_cons, hc]
      · simp [List.mem_cons, hl]

theorem computeProblem_unresolved (fs : FS) (path : List Nat) (pe : ElfFile) :
    (computeProblem fs path pe).unresolved
      = relDirectOf pe ++ failedSearchOf fs path pe ++ failedDirectOf fs pe := by
  simp only [computeProblem, stable_partition]
  rw [directLoop_snd, searchLoop_snd]
  simp [relDirectOf, failedSearchOf, failedDirectOf, directOf, searchOf, absDirectOf,
    searchRpathsOf, rpathEntriesOf, List.append_assoc]

theorem lookup_computeProblem (fs : FS) (path : List Nat) (pe : ElfFile) (lib : List Nat) :
    List.lookup lib (computeProblem fs path pe).resolved
      = if lib ∈ absDirectOf pe ∧ candidate_matches fs pe lib = true then some lib
        else if lib ∈ searchOf pe ∧ should_be_resolved lib = true
            ∧ (findCandidate fs pe (searchRpathsOf path pe) lib).isSome = true
          then findCandidate fs pe (searchRpathsOf path pe) lib
          else none := by
  simp only [computeProblem, stable_partition]
  rw [lookup_directLoop, lookup_searchLoop]
  simp [absDirectOf, directOf, searchOf, searchRpathsOf, rpathEntriesOf]

theorem findCandidate_append (fs : FS) (pe : ElfFile) (lib : List Nat) :
    ∀ (pre : List (List Nat)) (r : List Nat) (post : List (List Nat)),
      (∀ r1 ∈ pre, candidate_matches fs pe (pjoin r1 lib) = false) →
      candidate_matches fs pe (pjoin r lib) = true →
      findCandidate fs pe (pre ++ r :: post) lib = some (pjoin r lib) := by
  intro pre
  induction pre with
  | nil =>
    intro r post hpre hr
    simp [findCandidate, hr]
  | cons p0 rest ih =>
    intro r post hpre hr
    have h0 : candidate_matches fs pe (pjoin p0 lib) = false :=
      hpre p0 (List.mem_cons_self p0 rest)
    simp only [List.cons_append, findCandidate, h0, Bool.false_eq_true, if_false]
    exact ih r post (fun r1 h => hpre r1 (List.mem_cons_of_mem _ h)) hr

theorem bnot_true {b : Bool} (h : (!b) = true) : b = false := by
  cases b
  · rfl
  · simp at h

theorem mem_directOf_contains {pe : ElfFile} {lib : List Nat} (h : lib ∈ directOf pe) :
    lib.contains 47 = true :=
  (List.mem_filter.mp h).2

theorem mem_searchOf_contains {pe : ElfFile} {lib : List Nat} (h : lib ∈ searchOf pe) :
    lib.contains 47 = false :=
  bnot_true ((List.mem_filter.mp h).2 : (!(lib.contains 47)) = true)

theorem not_mem_absDirectOf (fs : FS) (pe : ElfFile) (lib : List Nat)
    (hbare : lib.contains 47 = false) :
    ¬(lib ∈ absDirectOf pe ∧ candidate_matches fs pe lib = true) := by
  rintro ⟨hd, -⟩
  have h1 : lib ∈ directOf pe := (List.mem_filter.mp hd).1
  have h2 := mem_directOf_contains h1
  rw [hbare] at h2
  exact Bool.false_ne_true h2

theorem lookup_computeProblem_bare (fs : FS) (path : List Nat) (pe : ElfFile) (lib : List Nat)
    (hmem : lib ∈ pe.dt_needed_strs) (hbare : lib.contains 47 = false) :
    List.lookup lib (computeProblem fs path pe).resolved
      = if should_be_resolved lib = true
        then findCandidate fs pe (searchRpathsOf path pe) lib
        else none := by
  rw [lookup_computeProblem]
  rw [if_neg (not_mem_absDirectOf fs pe lib hbare)]
  have hsm : lib ∈ searchOf pe := by
    refine List.mem_filter.mpr ⟨hmem, ?_⟩
    show (!(lib.contains 47)) = true
    rw [hbare]
    rfl
  by_cases hs : should_be_resolved lib = true
  · cases hf : findCandidate fs pe (searchRpathsOf path pe) lib with
    | some c => simp [hsm, hs]
    | none => simp
  · simp [hs]

theorem not_mem_searchOf_of_contains (pe : ElfFile) (lib : List Nat)
    (hcont : lib.contains 47 = true) : lib ∉ searchOf pe := by
  intro hsm
  have h2 := mem_searchOf_contains hsm
  rw [hcont] at h2
  simp at h2

theorem computeProblem_disjoint (fs : FS) (path : List Nat) (pe : ElfFile) (lib : List Nat)
    (hu : lib ∈ (computeProblem fs path pe).unresolved) :
    List.lookup lib (computeProblem fs path pe).resolved = none := by
  rw [computeProblem_unresolved] at hu
  rw [lookup_computeProblem]
  rcases List.mem_append.mp hu with hu1 | hdirect
  rcases List.mem_append.mp hu1 with hrel | hsearch
  · -- a relative direct reference
    have h1 : lib ∈ directOf pe := (List.mem_filter.mp hrel).1
    have hcont : lib.contains 47 = true := mem_directOf_contains h1
    have habs : isAbs lib = false :=
      bnot_true ((List.mem_filter.mp hrel).2 : (!(isAbs lib)) = true)
    have hc1 : ¬(lib ∈ absDirectOf pe ∧ candidate_matches fs pe lib = true) := by
      rintro ⟨hd, -⟩
      have h2 : isAbs lib = true := (List.mem_filter.mp hd).2
      rw [habs] at h2
      exact Bool.false_ne_true h2
    have hc2 : ¬(lib ∈ searchOf pe ∧ should_be_resolved lib = true
        ∧ (findCandidate fs pe (searchRpathsOf path pe) lib).isSome = true) := by
      rintro ⟨hsm, -, -⟩
      exact not_mem_searchOf_of_contains pe lib hcont hsm
    rw [if_neg hc1, if_neg hc2]
  · -- a by-search name no entry satisfied
    have hsm : lib ∈ searchOf pe := (List.mem_filter.mp hsearch).1
    have hprops : (should_be_resolved lib
        && (findCandidate fs pe (searchRpathsOf path pe) lib).isNone) = true :=
      (List.mem_filter.mp hsearch).2
    have hnone : (findCandidate fs pe (searchRpathsOf path pe) lib).isNone = true :=
      ((Bool.and_eq_true _ _).mp hprops).2
    have hcont : lib.contains 47 = false := mem_searchOf_contains hsm
    have hc2 : ¬(lib ∈ searchOf pe ∧ should_be_resolved lib = true
        ∧ (findCandidate fs pe (searchRpathsOf path pe) lib).isSome = true) := by
      rintro ⟨-, -, hsome⟩
      rw [Option.isNone_iff_eq_none.mp hnone] at hsome
      exact Bool.false_ne_true hsome
    rw [if_neg (not_mem_absDirectOf fs pe lib hcont), if_neg hc2]
  · -- an absolute direct reference that failed validation
    have hd : lib ∈ absDirectOf pe := (List.mem_filter.mp hdirect).1
    have hcm : candidate_matches fs pe lib = false :=
      bnot_true ((List.mem_filter.mp hdirect).2 : (!(candidate_matches fs pe lib)) = true)
    have h1 : lib ∈ directOf pe := (List.mem_filter.mp hd).1
    have hcont : lib.contains 47 = true := mem_directOf_contains h1
    have hc1 : ¬(lib ∈ absDirectOf pe ∧ candidate_matches fs pe lib = true) := by
      rintro ⟨-, hcmt⟩
      rw [hcm] at hcmt
      exact Bool.false_ne_true hcmt
    have hc2 : ¬(lib ∈ searchOf pe ∧ should_be_resolved lib = true
        ∧ (findCandidate fs pe (searchRpathsOf path pe) lib).isSome = true) := by
      rintro ⟨hsm, -, -⟩
      exact not_mem_searchOf_of_contains pe lib hcont hsm
    rw [if_neg hc1, if_neg hc2]

theorem visit_file_some_inv (fs : FS) (path : List Nat) (p : Problem)
    (h : visit_file fs path = some p) :
    ∃ pe, fs path = OpenResult.ok pe ∧ pe.has_needed = true
      ∧ p = computeProblem fs path pe := by
  cases hfs : fs path with
  | ioError => simp [visit_file, hfs] at h
  | parseError => simp [visit_file, hfs] at h
  | ok pe =>
    simp only [visit_file, hfs] at h
    by_cases hn : pe.has_needed = true
    · rw [if_pos hn] at h
      refine ⟨pe, rfl, hn, ?_⟩
      by_cases hg : ((computeProblem fs path pe).unresolved.isEmpty
          && (computeProblem fs path pe).relative_rpaths.isEmpty) = true
      · rw [if_pos hg] at h
        exact Option.noConfusion h
      · rw [if_neg hg] at h
        exact (Option.some.inj h).symm
    · rw [if_neg hn] at h
      exact Option.noConfusion h

/-- Report fixture for the policy-gate witness. -/
def prob7 : Problem :=
  { resolved := [(bs "liba.so", bs "/A/liba.so"), (bs "/x/y.so", bs "/x/y.so")]
    unresolved := [bs "libz.so"]
    relative_rpaths := [] }

/-- The report text `[("app", prob7)]` renders to. -/
def reportText7 : String :=
  "Not all executables/libraries can resolve their dependencies:\napp\n        liba.so => /A/liba.so\n        /x/y.so\n        libz.so => not found\n\n"

/-! The claims. -/

/-- C1: for a by-search needed name that must be resolved, the absolute
search-path entries are probed in declared order; the first entry whose
candidate `entry / name` is compatible wins and `resolved[name]` is set to
that candidate; with search paths `[A, B]` both containing a compatible
candidate, the resolved path is the one under `A`. -/
theorem first_match_wins (fs : FS) (path : List Nat) (pe : ElfFile) (lib : List Nat)
    (hmem : lib ∈ pe.dt_needed_strs) (hbare : lib.contains 47 = false)
    (hsbr : should_be_resolved lib = true)
    (pre : List (List Nat)) (r : List Nat) (post : List (List Nat))
    (hsplit : searchRpathsOf path pe = pre ++ r :: post)
    (hpre : ∀ r1 ∈ pre, candidate_matches fs pe (pjoin r1 lib) = false)
    (hr : candidate_matches fs pe (pjoin r lib) = true) :
    List.lookup lib (computeProblem fs path pe).resolved = some (pjoin r lib)
    ∧ (∀ A B : List Nat, candidate_matches fs pe (pjoin A lib) = true →
        candidate_matches fs pe (pjoin B lib) = true →
        findCandidate fs pe [A, B] lib = some (pjoin A lib)) := by
  constructor
  · rw [lookup_computeProblem_bare fs path pe lib hmem hbare, if_pos hsbr, hsplit]
    exact findCandidate_append fs pe lib pre r post hpre hr
  · intro A B hA hB
    simp [findCandidate, hA]

theorem first_match_wins_witness :
    List.lookup (bs "liba.so") (computeProblem fs1 path1 pe1).resolved
        = some (pjoin (bs "/A") (bs "liba.so"))
    ∧ findCandidate fs1 pe1 [bs "/A", bs "/B"] (bs "liba.so")
        = some (pjoin (bs "/A") (bs "liba.so")) := by
  have h := first_match_wins fs1 path1 pe1 (bs "liba.so") (by decide) (by decide) (by decide)
    [] (bs "/A") [bs "/B"] (by decide)
    (by intro r1 h1; exact absurd h1 (List.not_mem_nil r1)) (by decide)
  exact ⟨h.1, h.2 (bs "/A") (bs "/B") (by decide) (by decide)⟩

/-- C2: `is_compatible(consumer, candidate)` holds iff the candidate is a
shared object (ET_DYN) and the two descriptors agree on endianness, bit
width and machine code. -/
theorem is_compatible_iff (parent child : ElfFile) :
    is_compatible parent child = true ↔
      (child.elf_hdr.e_type = ET_DYN
        ∧ parent.is_little_endian = child.is_little_endian
        ∧ parent.is_64_bit = child.is_64_bit
        ∧ parent.elf_hdr.e_machine = child.elf_hdr.e_machine) := by
  simp [is_compatible, Bool.and_eq_true, and_assoc]

/-- C3 (amended): `unresolved` is built as the relative direct references,
then the by-search names no search-path entry satisfied, then the absolute
direct references that failed validation — the search-loop failures
precede the direct-reference failures, not the other way round. -/
theorem unresolved_order (fs : FS) (path : List Nat) (pe : ElfFile) :
    (computeProblem fs path pe).unresolved
      = relDirectOf pe ++ failedSearchOf fs path pe ++ failedDirectOf fs pe :=
  computeProblem_unresolved fs path pe

/-- C3 counterexample: a file with one failing absolute direct reference
and one failing by-search name puts the by-search name first, so the failed
absolute direct reference does not precede the failed by-search name. -/
theorem unresolved_order_counterexample :
    (computeProblem fs0 path0 pe0).unresolved = [bs "libs.so", bs "/a/libd.so"]
    ∧ (computeProblem fs0 path0 pe0).unresolved ≠ [bs "/a/libd.so", bs "libs.so"]
    ∧ bs "/a/libd.so" ∈ failedDirectOf fs0 pe0
    ∧ bs "libs.so" ∈ failedSearchOf fs0 path0 pe0 :=
  ⟨by decide, by decide, by decide, by decide⟩

/-- C4: an analyzed ELF file records a diagnostic iff it has needed
entries and its `unresolved` or `relative_rpaths` is non-empty; a file with
no needed entries never records one; a file whose RPATH holds a relative
entry records one even when everything resolved. -/
theorem diagnostic_iff (fs : FS) (path : List Nat) (pe : ElfFile)
    (h : fs path = OpenResult.ok pe) :
    (visit_file fs path = some (computeProblem fs path pe)
      ↔ pe.has_needed = true
        ∧ ((computeProblem fs path pe).unresolved ≠ []
            ∨ (computeProblem fs path pe).relative_rpaths ≠ []))
    ∧ (pe.has_needed = false → visit_file fs path = none)
    ∧ (∀ p, visit_file fs path = some p → p = computeProblem fs path pe)
    ∧ (pe.has_needed = true → (computeProblem fs path pe).relative_rpaths ≠ [] →
        visit_file fs path = some (computeProblem fs path pe)) := by
  have hv : visit_file fs path
      = (if pe.has_needed = true
          then (if ((computeProblem fs path pe).unresolved.isEmpty
                  && (computeProblem fs path pe).relative_rpaths.isEmpty) = true
                then none else some (computeProblem fs path pe))
          else none) := by
    simp only [visit_file, h]
  by_cases hn : pe.has_needed = true
  · rw [if_pos hn] at hv
    by_cases hg : ((computeProblem fs path pe).unresolved.isEmpty
        && (computeProblem fs path pe).relative_rpaths.isEmpty) = true
    · rw [if_pos hg] at hv
      have hempty : (computeProblem fs path pe).unresolved = []
          ∧ (computeProblem fs path pe).relative_rpaths = [] := by
        have h2 := (Bool.and_eq_true _ _).mp hg
        exact ⟨List.isEmpty_iff.mp h2.1, List.isEmpty_iff.mp h2.2⟩
      refine ⟨?_, ?_, ?_, ?_⟩
      · constructor
        · intro hsome
          rw [hv] at hsome
          exact Option.noConfusion hsome
        · rintro ⟨-, hne | hne⟩
          · exact absurd hempty.1 hne
          · exact absurd hempty.2 hne
      · intro hn2
        rw [hn2] at hn
        exact Bool.noConfusion hn
      · intro p hp
        rw [hv] at hp
        exact Option.noConfusion hp
      · intro _ hne
        exact absurd hempty.2 hne
    · rw [if_neg hg] at hv
      have hne : (computeProblem fs path pe).unresolved ≠ []
          ∨ (computeProblem fs path pe).relative_rpaths ≠ [] := by
        by_contra hcon
        push_neg at hcon
        exact hg ((Bool.and_eq_true _ _).mpr
          ⟨List.isEmpty_iff.mpr hcon.1, List.isEmpty_iff.mpr hcon.2⟩)
      refine ⟨?_, ?_, ?_, ?_⟩
      · exact ⟨fun _ => ⟨hn, hne⟩, fun _ => hv⟩
      · intro hn2
        rw [hn2] at hn
        exact Bool.noConfusion hn
      · intro p hp
        rw [hv] at hp
        exact (Option.some.inj hp).symm
      · intro _ _
        exact hv
  · rw [if_neg hn] at hv
    refine ⟨?_, ?_, ?_, ?_⟩
    · constructor
      · intro hsome
        rw [hv] at hsome
        exact Option.noConfusion hsome
      · rintro ⟨hn2, -⟩
        exact absurd hn2 hn
    · intro _
      exact hv
    · intro p hp
      rw [hv] at hp
      exact Option.noConfusion hp
    · intro hn2
      exact absurd hn2 hn

theorem diagnostic_iff_witness :
    visit_file fs4 path4 = some (computeProblem fs4 path4 pe4)
    ∧ visit_file fsE pathE = none :=
  ⟨(diagnostic_iff fs4 path4 pe4 (by decide)).2.2.2 (by decide) (by decide),
   (diagnostic_iff fsE pathE peE (by decide)).2.1 (by decide)⟩

/-- C5: `should_be_resolved(name)` is false iff the name decodes as UTF-8
and the decoded name matches the allowlist; a decode failure fails closed
(returns true); an allowlisted by-search name such as `libc.so.6` never
appears in `resolved` or `unresolved` of any file's diagnostic. -/
theorem allowlist_gate (name : List Nat) :
    (should_be_resolved name = false
      ↔ ∃ s, utf8Decode name = some s ∧ allowRegexMatch s = true)
    ∧ (utf8Decode name = none → should_be_resolved name = true)
    ∧ (∀ (fs : FS) (path : List Nat) (p : Problem), visit_file fs path = some p →
        List.lookup (bs "libc.so.6") p.resolved = none
          ∧ bs "libc.so.6" ∉ p.unresolved) := by
  refine ⟨?_, ?_, ?_⟩
  · cases hd : utf8Decode name with
    | some s => simp [should_be_resolved, hd]
    | none => simp [should_be_resolved, hd]
  · intro hd
    simp [should_be_resolved, hd]
  · intro fs path p h
    obtain ⟨pe, -, -, hp⟩ := visit_file_some_inv fs path p h
    subst hp
    have hsbr : should_be_resolved (bs "libc.so.6") = false := by decide
    have hbare : (bs "libc.so.6").contains 47 = false := by decide
    constructor
    · rw [lookup_computeProblem]
      rw [if_neg (not_mem_absDirectOf fs pe (bs "libc.so.6") hbare)]
      have hc2 : ¬(bs "libc.so.6" ∈ searchOf pe
          ∧ should_be_resolved (bs "libc.so.6") = true
          ∧ (findCandidate fs pe (searchRpathsOf path pe) (bs "libc.so.6")).isSome = true) := by
        rintro ⟨-, hs, -⟩
        rw [hsbr] at hs
        exact Bool.noConfusion hs
      rw [if_neg hc2]
    · rw [computeProblem_unresolved]
      intro hmem
      rcases List.mem_append.mp hmem with h1 | h2
      rcases List.mem_append.mp h1 with hrel | hsearch
      · have hc := mem_directOf_contains (List.mem_filter.mp hrel).1
        rw [hbare] at hc
        exact Bool.noConfusion hc
      · have hprops : (should_be_resolved (bs "libc.so.6")
            && (findCandidate fs pe (searchRpathsOf path pe) (bs "libc.so.6")).isNone) = true :=
          (List.mem_filter.mp hsearch).2
        have hs := ((Bool.and_eq_true _ _).mp hprops).1
        rw [hsbr] at hs
        exact Bool.noConfusion hs
      · have hc := mem_directOf_contains (List.mem_filter.mp (List.mem_filter.mp h2).1).1
        rw [hbare] at hc
        exact Bool.noConfusion hc

theorem allowlist_gate_witness :
    should_be_resolved (bs "libc.so.6") = false
    ∧ should_be_resolved [255] = true
    ∧ (List.lookup (bs "libc.so.6")
          (Problem.mk [] [bs "libs.so", bs "/a/libd.so"] []).resolved = none
       ∧ bs "libc.so.6" ∉ (Problem.mk [] [bs "libs.so", bs "/a/libd.so"] []).unresolved) :=
  ⟨(allowlist_gate (bs "libc.so.6")).1.mpr ⟨bs "libc.so.6", by decide, by decide⟩,
   (allowlist_gate [255]).2.1 (by decide),
   (allowlist_gate (bs "libc.so.6")).2.2 fs0 path0
     (Problem.mk [] [bs "libs.so", bs "/a/libd.so"] []) (by decide)⟩

/-- C6: a candidate path whose open fails with an I/O error or whose bytes
fail to parse as ELF makes `candidate_matches` return false - the
candidate is treated as incompatible, neither failure propagates. -/
theorem candidate_matches_error_false (fs : FS) (pe : ElfFile) (path : List Nat)
    (h : fs path = OpenResult.ioError ∨ fs path = OpenResult.parseError) :
    candidate_matches fs pe path = false := by
  cases h with
  | inl h => simp [candidate_matches, h]
  | inr h => simp [candidate_matches, h]

theorem candidate_matches_error_false_witness :
    candidate_matches fs0 pe0 (bs "/nope") = false
    ∧ candidate_matches fsP pe0 (bs "/mal") = false :=
  ⟨candidate_matches_error_false fs0 pe0 (bs "/nope") (Or.inl (by decide)),
   candidate_matches_error_false fsP pe0 (bs "/mal") (Or.inr (by decide))⟩

/-- C7 (amended): an empty aggregate report returns silently with nothing
logged; a non-empty report whose rendering succeeds raises
`CannotLocateSharedLibraries` carrying the full report text in strict mode
and emits the same text through the logging channel returning normally
otherwise; when rendering reaches a self-resolved entry whose name does not
decode as UTF-8, line 201's `StringIO.write` raises `TypeError` instead,
under either policy. -/
theorem post_install_policy (problems : List (String × Problem)) (strict : Bool) :
    (problems = [] → post_install problems strict = CheckResult.passed)
    ∧ (∀ text, problems ≠ [] → renderReport problems = some text → strict = true →
        post_install problems strict = CheckResult.fatal text)
    ∧ (∀ text, problems ≠ [] → renderReport problems = some text → strict = false →
        post_install problems strict = CheckResult.warned text)
    ∧ (problems ≠ [] → renderReport problems = none →
        post_install problems strict = CheckResult.typeError) := by
  refine ⟨?_, ?_, ?_, ?_⟩
  · intro hp
    subst hp
    rfl
  · intro text hp hr hs
    subst hs
    have he : problems.isEmpty = false := by
      cases problems
      · exact absurd rfl hp
      · rfl
    simp [post_install, he, hr]
  · intro text hp hr hs
    subst hs
    have he : problems.isEmpty = false := by
      cases problems
      · exact absurd rfl hp
      · rfl
    simp [post_install, he, hr]
  · intro hp hr
    have he : problems.isEmpty = false := by
      cases problems
      · exact absurd rfl hp
      · rfl
    simp [post_install, he, hr]

/-- C7 counterexample: a non-empty aggregate report holding a validated
direct reference with an undecodable name makes the checker end in
`TypeError` under both policies - it neither raises the distinguished
`CannotLocateSharedLibraries` error nor logs the report and returns, as
the original claim states. -/
theorem post_install_typeerror_counterexample :
    post_install [("app", probBad)] true = CheckResult.typeError
    ∧ post_install [("app", probBad)] false = CheckResult.typeError
    ∧ renderReport [("app", probBad)] = none
    ∧ utf8Decode [47, 255] = none :=
  ⟨by decide, by decide, by decide, by decide⟩

theorem post_install_policy_witness :
    post_install [] true = CheckResult.passed
    ∧ post_install [("app", prob7)] true = CheckResult.fatal reportText7
    ∧ post_install [("app", prob7)] false = CheckResult.warned reportText7
    ∧ post_install [("app", probBad)] false = CheckResult.typeError :=
  ⟨(post_install_policy [] true).1 rfl,
   (post_install_policy [("app", prob7)] true).2.1 reportText7
     (List.cons_ne_nil _ _) (by decide) rfl,
   (post_install_policy [("app", prob7)] false).2.2.1 reportText7
     (List.cons_ne_nil _ _) (by decide) rfl,
   (post_install_policy [("app", probBad)] false).2.2.2
     (List.cons_ne_nil _ _) (by decide)⟩

/-- C8: the search-path entries are the raw RPATH split on `:` with empty
entries dropped and `$ORIGIN` replaced by the file's directory; they are
partitioned into absolute and relative, the relative ones become
`relative_rpaths` in order, and probing of a by-search name consults only
the absolute entries. -/
theorem rpath_partition (fs : FS) (path : List Nat) (pe : ElfFile) :
    (computeProblem fs path pe).relative_rpaths
        = (rpathEntriesOf path pe).filter (fun x => !isAbs x)
    ∧ searchRpathsOf path pe = (rpathEntriesOf path pe).filter isAbs
    ∧ (∀ lib, lib ∈ pe.dt_needed_strs → lib.contains 47 = false →
        List.lookup lib (computeProblem fs path pe).resolved
          = if should_be_resolved lib = true
            then findCandidate fs pe (searchRpathsOf path pe) lib
            else none) := by
  refine ⟨?_, rfl, ?_⟩
  · simp [computeProblem, stable_partition, rpathEntriesOf]
  · intro lib hmem hbare
    exact lookup_computeProblem_bare fs path pe lib hmem hbare

theorem rpath_partition_witness :
    (computeProblem fs4 path4 pe4).relative_rpaths
        = (rpathEntriesOf path4 pe4).filter (fun x => !isAbs x)
    ∧ List.lookup (bs "liba.so") (computeProblem fs4 path4 pe4).resolved
        = if should_be_resolved (bs "liba.so") = true
          then findCandidate fs4 pe4 (searchRpathsOf path4 pe4) (bs "liba.so")
          else none :=
  ⟨(rpath_partition fs4 path4 pe4).1,
   (rpath_partition fs4 path4 pe4).2.2 (bs "liba.so") (by decide) (by decide)⟩

/-- C9: in any recorded diagnostic, no library name is both a key of
`resolved` and an element of `unresolved`. -/
theorem resolved_unresolved_disjoint (fs : FS) (path : List Nat) (p : Problem)
    (h : visit_file fs path = some p) (lib : List Nat) (hu : lib ∈ p.unresolved) :
    List.lookup lib p.resolved = none := by
  obtain ⟨pe, -, -, hp⟩ := visit_file_some_inv fs path p h
  subst hp
  exact computeProblem_disjoint fs path pe lib hu

theorem resolved_unresolved_disjoint_witness :
    List.lookup (bs "libs.so")
        (Problem.mk [] [bs "libs.so", bs "/a/libd.so"] []).resolved = none :=
  resolved_unresolved_disjoint fs0 path0
    (Problem.mk [] [bs "libs.so", bs "/a/libd.so"] []) (by decide) (bs "libs.so") (by decide)

/-- C10 (amended): the allowlist gate applies only to bare by-search
names, and a direct needed reference (one containing a path separator) is
never allowlist-checked; but only an absolute direct reference is
validated by opening its own path - resolving to itself on success and
landing in `unresolved` on failure, regardless of its basename - while a
relative direct reference is appended to `unresolved` without ever being
opened, even when a compatible file exists at that path. -/
theorem direct_refs_bypass_allowlist (fs : FS) (path : List Nat) (pe : ElfFile) (lib : List Nat)
    (hmem : lib ∈ pe.dt_needed_strs) (hslash : lib.contains 47 = true) :
    (isAbs lib = true → candidate_matches fs pe lib = false →
        lib ∈ (computeProblem fs path pe).unresolved)
    ∧ (isAbs lib = true → candidate_matches fs pe lib = true →
        List.lookup lib (computeProblem fs path pe).resolved = some lib)
    ∧ (isAbs lib = false →
        lib ∈ (computeProblem fs path pe).unresolved
          ∧ List.lookup lib (computeProblem fs path pe).resolved = none) := by
  refine ⟨?_, ?_, ?_⟩
  · intro habs hcm
    have hd : lib ∈ absDirectOf pe :=
      List.mem_filter.mpr ⟨List.mem_filter.mpr ⟨hmem, hslash⟩, habs⟩
    rw [computeProblem_unresolved]
    refine List.mem_append.mpr (Or.inr ?_)
    refine List.mem_filter.mpr ⟨hd, ?_⟩
    show (!(candidate_matches fs pe lib)) = true
    rw [hcm]
    rfl
  · intro habs hcm
    have hd : lib ∈ absDirectOf pe :=
      List.mem_filter.mpr ⟨List.mem_filter.mpr ⟨hmem, hslash⟩, habs⟩
    rw [lookup_computeProblem]
    have hcond : lib ∈ absDirectOf pe ∧ candidate_matches fs pe lib = true := ⟨hd, hcm⟩
    rw [if_pos hcond]
  · intro habs
    have hrel : lib ∈ relDirectOf pe := by
      refine List.mem_filter.mpr ⟨List.mem_filter.mpr ⟨hmem, hslash⟩, ?_⟩
      show (!(isAbs lib)) = true
      rw [habs]
      rfl
    have hu : lib ∈ (computeProblem fs path pe).unresolved := by
      rw [computeProblem_unresolved]
      exact List.mem_append.mpr (Or.inl (List.mem_append.mpr (Or.inl hrel)))
    exact ⟨hu, computeProblem_disjoint fs path pe lib hu⟩

/-- C10 counterexample: a relative direct reference `x/libc.so.6` whose
own path holds a compatible library is still never opened - it lands in
`unresolved` and not in `resolved`, so a direct reference containing a
path separator is not always validated by opening its own path. -/
theorem direct_refs_counterexample :
    candidate_matches fsR peR (bs "x/libc.so.6") = true
    ∧ (computeProblem fsR pathR peR).unresolved = [bs "x/libc.so.6"]
    ∧ List.lookup (bs "x/libc.so.6") (computeProblem fsR pathR peR).resolved = none :=
  ⟨by decide, by decide, by decide⟩

theorem direct_refs_bypass_allowlist_witness :
    bs "/usr/lib/libc.so.6" ∈ (computeProblem fs10 path10 pe10).unresolved
    ∧ List.lookup (bs "/lib/libok.so") (computeProblem fs10 path10 pe10).resolved
        = some (bs "/lib/libok.so")
    ∧ (bs "x/libc.so.6" ∈ (computeProblem fsR pathR peR).unresolved
       ∧ List.lookup (bs "x/libc.so.6") (computeProblem fsR pathR peR).resolved = none) :=
  ⟨(direct_refs_bypass_allowlist fs10 path10 pe10 (bs "/usr/lib/libc.so.6")
      (by decide) (by decide)).1 (by decide) (by decide),
   (direct_refs_bypass_allowlist fs10 path10 pe10 (bs "/lib/libok.so")
      (by decide) (by decide)).2.1 (by decide) (by decide),
   (direct_refs_bypass_allowlist fsR pathR peR (bs "x/libc.so.6")
      (by decide) (by decide)).2.2 (by decide)⟩

end CheckElf
